import Mathlib

/-!
# Verification of the statistics / regression core of `generate_graph.py`

This file gives a shallow embedding, in Lean 4, of the statistical module,
the trendline fitters, the aggregation driver, the input-path check and the
per-column plotting loop of `src/generate_graph.py`, and proves (or refutes)
the specification claims about them.

Modelling conventions:
* Python floats are modelled by exact rationals `ℚ`; the only irrational
  operation in the source, `np.sqrt`, is modelled by `Real.sqrt`, so the
  Pearson correlation coefficient lives in `ℝ`.
* A Python exception is modelled by `Except.error msg`; a normal return by
  `Except.ok`.  Numpy's float division by zero does NOT raise (it yields
  NaN/Inf with a warning); in the `ℚ`/`ℝ` embedding such a quotient is the
  junk value of division by zero, and it is still an `Except.ok` result —
  exactly the observable fact the error-handling claims are about.
* `None` arguments are modelled by `Option`.
* A NaN measurement entry in the data table is modelled by `Option.none`.
* The external solvers (`numpy.linalg.lstsq` inside `np.polyfit`, and
  `scipy.optimize.curve_fit`) are third-party numeric code; they are
  abstracted as explicit function parameters, while the argument checks that
  `np.polyfit` documents (and the complete control flow of the repository's
  own code around the solvers) are embedded faithfully.
-/

namespace GenerateGraph

/-- Model of 1-D `np.average(a, weights=w)`: checks the shapes agree, then
that the weights do not sum to zero, then returns `Σ wᵢ·aᵢ / Σ wᵢ`.
The two error conditions and their order are numpy's. -/
def average (a : List ℚ) (weights : List ℚ) : Except String ℚ :=
  if a.length ≠ weights.length then
    .error "TypeError: Axis must be specified when shapes of a and weights differ."
  else if weights.sum = 0 then
    .error "ZeroDivisionError: Weights sum to zero, cannot be normalized"
  else
    .ok ((List.zipWith (· * ·) weights a).sum / weights.sum)

/-- Embedding of `compute_weights(X, y, weight_func)` (lines 31–40):
returns `None` when no weight function is given, otherwise the list
`[weight_func(X[i], y[i]) for i in range(len(X))]`; the Python list indexing
`y[i]` raises `IndexError` when `y` is shorter than `X`. -/
def compute_weights (X y : List ℚ) (weight_func : Option (ℚ → ℚ → ℚ)) :
    Except String (Option (List ℚ)) :=
  match weight_func with
  | none => .ok none
  | some wf =>
      if X.length ≤ y.length then
        .ok (some ((List.range X.length).map fun i => wf (X.getD i 0) (y.getD i 0)))
      else
        .error "IndexError: list index out of range"

/-- Embedding of `coefficient_of_determination(X, y, trendline, weight_func)`
(lines 42–62).  `weights` is the computed weight list when a weight function
is supplied, and `[1] * len(X)` otherwise; `y_regression = trendline(X)`;
`tss = Σ wᵢ (yᵢ - mean)²`, `rss = Σ wᵢ (ŷᵢ - yᵢ)²`; result `1 - rss / tss`.
(When `tss = 0` the float code silently yields NaN; here the junk value of
`ℚ`-division by zero appears instead — still a non-error return.) -/
def coefficient_of_determination (X y : List ℚ) (trendline : ℚ → ℚ)
    (weight_func : Option (ℚ → ℚ → ℚ)) : Except String ℚ := do
  let weightsOpt ← compute_weights X y weight_func
  -- line 51: all points are equally weighted when no weight function is given
  let weights := weightsOpt.getD (List.replicate X.length 1)
  let y_regression := X.map trendline
  let mean ← average y weights
  let tss := (List.zipWith (fun wi yi => wi * (yi - mean) ^ 2) weights y).sum
  let rss := (List.zipWith (fun wi d => wi * d ^ 2) weights
      (List.zipWith (fun a b => a - b) y_regression y)).sum
  pure (1 - rss / tss)

/-- Embedding of `covariance(X, y, weights)` (lines 64–72):
`np.average((X - avg(X)) * (y - avg(y)), weights=w)` with
`w = [1] * len(X)` when `weights is None`. -/
def covariance (X y : List ℚ) (weights : Option (List ℚ)) : Except String ℚ := do
  let w := weights.getD (List.replicate X.length 1)
  let mx ← average X w
  let my ← average y w
  average (List.zipWith (fun a b => (a - mx) * (b - my)) X y) w

/-- Embedding of `correlation_coefficient(X, y, weights)` (lines 74–82):
`covariance(X, y, w) / np.sqrt(covariance(X, X, w) * covariance(y, y, w))`
with `w = [1] * len(X)` when `weights is None`.  The float code divides by
`sqrt`, which never raises; a zero denominator silently yields NaN/Inf there
and the junk value of real division by zero here. -/
noncomputable def correlation_coefficient (X y : List ℚ)
    (weights : Option (List ℚ)) : Except String ℝ := do
  let w := weights.getD (List.replicate X.length 1)
  let cxy ← covariance X y (some w)
  let cxx ← covariance X X (some w)
  let cyy ← covariance y y (some w)
  pure ((cxy : ℝ) / Real.sqrt ((cxx : ℝ) * (cyy : ℝ)))

/-- `true` exactly on a non-raising (`ok`) result. -/
def isSuccess {α : Type _} : Except String α → Bool
  | .ok _ => true
  | .error _ => false

/-- Embedding of `_generate_trendline_metrics(X, y, trendline, weight_func)`
(lines 84–88; the leading underscore is dropped for Lean): computes the
weight list, then the correlation coefficient, then the R² value. -/
noncomputable def generate_trendline_metrics (X y : List ℚ) (trendline : ℚ → ℚ)
    (weight_func : Option (ℚ → ℚ → ℚ)) : Except String (ℝ × ℚ) := do
  let weights ← compute_weights X y weight_func
  let p ← correlation_coefficient X y weights
  let rsq ← coefficient_of_determination X y trendline weight_func
  pure (p, rsq)

/-- Model of `np.poly1d(coeffs)`: the polynomial with coefficient list in
decreasing degree order, evaluated by Horner's scheme. -/
def poly1d (coeffs : List ℚ) : ℚ → ℚ :=
  fun x => coeffs.foldl (fun acc c => acc * x + c) 0

/-- Modelled from numpy's documented `np.polyfit(x, y, deg, w)` behavior
(third-party library, not repository code): it raises `TypeError` for an
empty `x`, for `len(x) != len(y)`, and for `len(w) != len(y)` — in that
order — and otherwise hands the (scaled Vandermonde) system to the
least-squares solver.  An underdetermined system, `len(x) < deg + 1`, is NOT
rejected: numpy only emits a `RankWarning` and returns the solver's
minimum-norm solution.  The numeric solve itself is abstracted as the
parameter `lstsq` (an `Except`, since the floating-point solver can fail on
degenerate scaled systems). -/
def np_polyfit (lstsq : List ℚ → List ℚ → ℕ → Option (List ℚ) → Except String (List ℚ))
    (X y : List ℚ) (deg : ℕ) (w : Option (List ℚ)) : Except String (List ℚ) :=
  if X.length = 0 then .error "TypeError: expected non-empty vector for x"
  else if X.length ≠ y.length then .error "TypeError: expected x and y to have same length"
  else
    match w with
    | some ws =>
        if ws.length ≠ y.length then .error "TypeError: expected w and y to have same length"
        else lstsq X y deg (some ws)
    | none => lstsq X y deg none

/-- Embedding of `generate_polynomial_trendline(X, y, weight_func, degree)`
(lines 90–98): computes the weights, fits `np.poly1d(np.polyfit(...))`, and
attaches the correlation coefficient and R² metrics.  No try/except: any
exception from `np.polyfit` or the metrics propagates. -/
noncomputable def generate_polynomial_trendline
    (lstsq : List ℚ → List ℚ → ℕ → Option (List ℚ) → Except String (List ℚ))
    (X y : List ℚ) (weight_func : Option (ℚ → ℚ → ℚ)) (degree : ℕ) :
    Except String ((ℚ → ℚ) × ℝ × ℚ) := do
  let weights ← compute_weights X y weight_func
  let coeffs ← np_polyfit lstsq X y degree weights
  let trendline := poly1d coeffs
  let pr ← generate_trendline_metrics X y trendline weight_func
  pure (trendline, pr.1, pr.2)

/-- Embedding of `generate_curve_fit(X, y, f, weight_func)` (lines 100–109):
computes the weights, runs `scipy.optimize.curve_fit(f, X, y, sigma=weights,
...)` — abstracted as the `optimizer` parameter since it is third-party
iterative numeric code that raises e.g. `RuntimeError` on non-convergence —
binds the optimal parameters into `trendline = lambda x: f(x, *popt)`, and
attaches the metrics.  No try/except anywhere: optimizer exceptions
propagate to the caller. -/
noncomputable def generate_curve_fit
    (optimizer : (ℚ → List ℚ → ℚ) → List ℚ → List ℚ → Option (List ℚ) → Except String (List ℚ))
    (X y : List ℚ) (f : ℚ → List ℚ → ℚ) (weight_func : Option (ℚ → ℚ → ℚ)) :
    Except String ((ℚ → ℚ) × ℝ × ℚ) := do
  let weights ← compute_weights X y weight_func
  let popt ← optimizer f X y weights
  let trendline := fun x => f x popt
  let pr ← generate_trendline_metrics X y trendline weight_func
  pure (trendline, pr.1, pr.2)

/-! ## The aggregation driver (lines 115–131)

A `Point` (shapely) is its coordinate pair `(x, y) = (longitude, latitude)`.
A data-table row carries its two coordinates and, per measurement-column
index, an optional value (`none` modelling NaN).  The grid `chunks` is the
partitioner's output: a list of `chunk_width` rows of `chunk_height` cells,
each cell a list of points; `chunks[i][j]` iteration `for i: for j:` is
row-major traversal, i.e. traversal of `grid.flatten`. -/

structure DataRow where
  lon : ℚ
  lat : ℚ
  vals : ℕ → Option ℚ

/-- The pandas row-selection mask `(df[lon_col] == point.x) & (df[lat_col] == point.y)`. -/
def rowMatches (r : DataRow) (p : ℚ × ℚ) : Bool :=
  r.lon = p.1 && r.lat = p.2

/-- `sum(x if not np.isnan(x) else 0 for x in columns[column])` for the rows
matching one point (line 124–126): NaN (`none`) counts as 0. -/
def pointTotal (df : List DataRow) (col : ℕ) (p : ℚ × ℚ) : ℚ :=
  ((df.filter (fun r => rowMatches r p)).map (fun r => (r.vals col).getD 0)).sum

/-- `total_v[column]` for one cell: the inner `for point in chunks[i][j]`
loop accumulates, for each point of the cell, the column sum over the rows
matching that point. -/
def cellTotal (df : List DataRow) (col : ℕ) (cell : List (ℚ × ℚ)) : ℚ :=
  (cell.map (pointTotal df col)).sum

/-- The `X` list built by the aggregation loop: in row-major cell order,
cells with `len(chunks[i][j]) == 0` are skipped (`continue`), every other
cell appends its point count. -/
def aggregate_X (grid : List (List (List (ℚ × ℚ)))) : List ℕ :=
  grid.flatten.filterMap (fun cell => if cell.length = 0 then none else some cell.length)

/-- The `Y[column]` list built by the aggregation loop for one measurement
column: in row-major cell order, empty cells are skipped and every other
cell appends its accumulated total. -/
def aggregate_Y (df : List DataRow) (col : ℕ) (grid : List (List (List (ℚ × ℚ)))) : List ℚ :=
  grid.flatten.filterMap (fun cell =>
    if cell.length = 0 then none else some (cellTotal df col cell))

/-- The non-empty cells of the grid, in the loop's row-major visit order. -/
def nonEmptyCells (grid : List (List (List (ℚ × ℚ)))) : List (List (ℚ × ℚ)) :=
  grid.flatten.filter (fun cell => cell.length != 0)

/-- The spec's reading of a cell's `Y` value: the sum of the column's values
over the rows whose coordinates exactly match a point in the cell — each
such row counted once. -/
def claimedCellTotal (df : List DataRow) (col : ℕ) (cell : List (ℚ × ℚ)) : ℚ :=
  ((df.filter (fun r => cell.any (fun p => rowMatches r p))).map
    (fun r => (r.vals col).getD 0)).sum

/-- Embedding of the input-path check (lines 26–29): the script exits with
code 1 exactly when `not (input_path.is_file() or input_path.exists())`
holds, i.e. exactly when this function returns `true` on the results of the
two `pathlib` predicates. -/
def exitsWithErrorCode (isFile pathExists : Bool) : Bool :=
  !(isFile || pathExists)

/-- Embedding of the body of the per-column plotting loop (lines 137–149)
for one column `y`: a linear polynomial trendline (default weight function
`None`, default degree 1), then the logarithmic curve fit with the model
`lambda t, a, b, c: a * np.log(b * t) + c` — abstracted as the parameter
`f` since only the uncaught-exception control flow is at issue — returning
the four logged metrics.  There is no try/except: any exception escapes. -/
noncomputable def process_column
    (optimizer : (ℚ → List ℚ → ℚ) → List ℚ → List ℚ → Option (List ℚ) → Except String (List ℚ))
    (lstsq : List ℚ → List ℚ → ℕ → Option (List ℚ) → Except String (List ℚ))
    (f : ℚ → List ℚ → ℚ) (X y : List ℚ) : Except String (ℝ × ℚ × ℝ × ℚ) := do
  let lin ← generate_polynomial_trendline lstsq X y none 1
  let logfit ← generate_curve_fit optimizer X y f none
  pure (lin.2.1, lin.2.2, logfit.2.1, logfit.2.2)

/-- Embedding of the driver loop `for column in Y:` (lines 137–149) over the
per-column sample lists: processes the columns in order; since exceptions
are uncaught, the first failing column aborts the whole run (`Except` bind
short-circuits, like an exception unwinding past the loop). -/
noncomputable def process_all_columns
    (optimizer : (ℚ → List ℚ → ℚ) → List ℚ → List ℚ → Option (List ℚ) → Except String (List ℚ))
    (lstsq : List ℚ → List ℚ → ℕ → Option (List ℚ) → Except String (List ℚ))
    (f : ℚ → List ℚ → ℚ) (X : List ℚ) (ycols : List (String × List ℚ)) :
    Except String (List (String × ℝ × ℚ × ℝ × ℚ)) :=
  ycols.mapM (fun c => (process_column optimizer lstsq f X c.2).map (fun m => (c.1, m)))

/-! ## Definitions taken from the specification's words (refinement targets) -/

/-- The spec's standard unweighted mean. -/
def unweightedMean (l : List ℚ) : ℚ := l.sum / l.length

/-- `Σ (xᵢ - x̄)(yᵢ - ȳ)` with unweighted means, as in the spec's standard
Pearson formula. -/
def centeredProductSum (X y : List ℚ) : ℚ :=
  (List.zipWith (fun a b => (a - unweightedMean X) * (b - unweightedMean y)) X y).sum

/-- The spec's standard (unweighted) Pearson correlation coefficient:
`Σ (xᵢ-x̄)(yᵢ-ȳ) / sqrt (Σ (xᵢ-x̄)² · Σ (yᵢ-ȳ)²)`. -/
noncomputable def pearsonUnweighted (X y : List ℚ) : ℝ :=
  (centeredProductSum X y : ℝ) /
    Real.sqrt ((centeredProductSum X X : ℝ) * (centeredProductSum y y : ℝ))

/-- The effective weight list of `coefficient_of_determination`: the
elementwise weight-function values when one is supplied, all-ones
otherwise. -/
def spec_weights (X y : List ℚ) (weight_func : Option (ℚ → ℚ → ℚ)) : List ℚ :=
  match weight_func with
  | none => List.replicate X.length 1
  | some wf => (List.range X.length).map fun i => wf (X.getD i 0) (y.getD i 0)

/-- The spec's weighted mean `Σ wᵢ yᵢ / Σ wᵢ`. -/
def weightedMean (l w : List ℚ) : ℚ := (List.zipWith (· * ·) w l).sum / w.sum

/-- The spec's weighted total sum of squares around the weighted mean. -/
def weightedTSS (y w : List ℚ) : ℚ :=
  (List.zipWith (fun wi yi => wi * (yi - weightedMean y w) ^ 2) w y).sum

/-- The spec's weighted residual sum of squares between `trendline(X)` and `y`. -/
def weightedRSS (X y : List ℚ) (trendline : ℚ → ℚ) (w : List ℚ) : ℚ :=
  (List.zipWith (fun wi d => wi * d ^ 2) w
    (List.zipWith (fun a b => a - b) (X.map trendline) y)).sum

/-- The value `covariance` returns when its `np.average` calls succeed: the
`w`-weighted mean of the centered products. -/
def covValue (X y w : List ℚ) : ℚ :=
  weightedMean
    (List.zipWith (fun a b => (a - weightedMean X w) * (b - weightedMean y w)) X y) w

/-! ## Helper lemmas -/

theorem average_ok {a w : List ℚ} (h1 : a.length = w.length) (h2 : w.sum ≠ 0) :
    average a w = .ok (weightedMean a w) := by
  simp [average, h1, h2, weightedMean]

theorem average_error_shape {a w : List ℚ} (h : a.length ≠ w.length) :
    average a w = .error "TypeError: Axis must be specified when shapes of a and weights differ." := by
  simp [average, h]

theorem average_error_zero {a w : List ℚ} (h1 : a.length = w.length) (h2 : w.sum = 0) :
    average a w = .error "ZeroDivisionError: Weights sum to zero, cannot be normalized" := by
  simp [average, h1, h2]

theorem average_ok_inv {a w : List ℚ} {m : ℚ} (h : average a w = .ok m) :
    a.length = w.length ∧ w.sum ≠ 0 ∧ m = weightedMean a w := by
  by_cases h1 : a.length = w.length
  · by_cases h2 : w.sum = 0
    · rw [average_error_zero h1 h2] at h; exact absurd h (by simp)
    · rw [average_ok h1 h2] at h
      exact ⟨h1, h2, (Except.ok.injEq _ _ ▸ h.symm :)⟩
  · rw [average_error_shape h1] at h; exact absurd h (by simp)

theorem covariance_ok {X y w : List ℚ} (h1 : w.length = X.length)
    (h2 : w.length = y.length) (h3 : w.sum ≠ 0) :
    covariance X y (some w) = .ok (covValue X y w) := by
  have hx : average X w = .ok (weightedMean X w) := average_ok h1.symm h3
  have hy : average y w = .ok (weightedMean y w) := average_ok h2.symm h3
  have hlen : (List.zipWith
      (fun a b => (a - weightedMean X w) * (b - weightedMean y w)) X y).length
      = w.length := by
    simp [List.length_zipWith, ← h1, ← h2]
  simp only [covariance, Option.getD, Bind.bind, Except.bind, hx, hy]
  rw [average_ok hlen h3]
  rfl

theorem covariance_ok_inv {X y w : List ℚ} {c : ℚ}
    (h : covariance X y (some w) = .ok c) :
    w.length = X.length ∧ w.length = y.length ∧ w.sum ≠ 0 ∧ c = covValue X y w := by
  by_cases h1 : w.length = X.length
  · by_cases h3 : w.sum = 0
    · rw [show covariance X y (some w) = _ from rfl] at h
      simp only [covariance, Option.getD, Bind.bind, Except.bind] at h
      rw [average_error_zero h1.symm h3] at h
      exact absurd h (by simp)
    · by_cases h2 : w.length = y.length
      · rw [covariance_ok h1 h2 h3] at h
        exact ⟨h1, h2, h3, (Except.ok.injEq _ _ ▸ h.symm :)⟩
      · simp only [covariance, Option.getD, Bind.bind, Except.bind] at h
        rw [average_ok h1.symm h3, average_error_shape (fun hh => h2 hh.symm)] at h
        exact absurd h (by simp)
  · simp only [covariance, Option.getD, Bind.bind, Except.bind] at h
    rw [average_error_shape (fun hh => h1 hh.symm)] at h
    exact absurd h (by simp)

theorem zipWith_replicate_mul_sum (c : ℚ) :
    ∀ (l : List ℚ) (n : ℕ), l.length = n →
      (List.zipWith (· * ·) (List.replicate n c) l).sum = c * l.sum
  | [], _, _ => by simp
  | a :: l, n, h => by
    cases n with
    | zero => simp at h
    | succ m =>
      simp only [List.length_cons, Nat.succ.injEq] at h
      simp [List.replicate_succ, zipWith_replicate_mul_sum c l m h, mul_add]

theorem sum_replicate_rat (n : ℕ) (c : ℚ) : (List.replicate n c).sum = n * c := by
  simp [List.sum_replicate, nsmul_eq_mul]

theorem weightedMean_replicate {l : List ℚ} {c : ℚ} {n : ℕ} (hc : c ≠ 0)
    (hn : l.length = n) : weightedMean l (List.replicate n c) = unweightedMean l := by
  subst hn
  rw [weightedMean, unweightedMean, zipWith_replicate_mul_sum c l l.length rfl,
    sum_replicate_rat, mul_comm (l.length : ℚ) c]
  rcases Nat.eq_zero_or_pos l.length with h0 | h0
  · simp [h0]
  · rw [mul_div_mul_left _ _ hc]

theorem average_replicate {l : List ℚ} {c : ℚ} {n : ℕ} (hc : c ≠ 0)
    (hn : l.length = n) (h0 : 0 < l.length) :
    average l (List.replicate n c) = .ok (unweightedMean l) := by
  have hs : (List.replicate n c).sum ≠ 0 := by
    rw [sum_replicate_rat]
    exact mul_ne_zero (by exact_mod_cast (hn ▸ h0).ne') hc
  rw [average_ok (by simp [hn]) hs, weightedMean_replicate hc hn]

theorem covValue_comm (X y w : List ℚ) : covValue X y w = covValue y X w := by
  unfold covValue
  rw [List.zipWith_comm]
  rw [show (fun b a => (a - weightedMean X w) * (b - weightedMean y w))
      = (fun a b => (a - weightedMean y w) * (b - weightedMean X w)) from by
    funext u v; ring]

theorem covariance_comm {X y : List ℚ} (w : List ℚ) (h : X.length = y.length) :
    covariance X y (some w) = covariance y X (some w) := by
  by_cases h1 : w.length = X.length
  · by_cases h3 : w.sum = 0
    · simp only [covariance, Option.getD, Bind.bind, Except.bind]
      rw [average_error_zero h1.symm h3, average_error_zero (h ▸ h1.symm) h3]
    · rw [covariance_ok h1 (h ▸ h1) h3, covariance_ok (h ▸ h1) h1 h3, covValue_comm]
  · simp only [covariance, Option.getD, Bind.bind, Except.bind]
    rw [average_error_shape (fun hh => h1 hh.symm),
      average_error_shape (fun hh => h1 (h ▸ hh.symm))]

theorem correlation_eval {X y w : List ℚ} {cxy cxx cyy : ℚ}
    (hxy : covariance X y (some w) = .ok cxy)
    (hxx : covariance X X (some w) = .ok cxx)
    (hyy : covariance y y (some w) = .ok cyy) :
    correlation_coefficient X y (some w)
      = .ok ((cxy : ℝ) / Real.sqrt ((cxx : ℝ) * (cyy : ℝ))) := by
  simp only [correlation_coefficient, Option.getD, Bind.bind, Except.bind, hxy, hxx, hyy]
  rfl

theorem correlation_error {X y w : List ℚ} {e : String}
    (hxy : covariance X y (some w) = .error e) :
    correlation_coefficient X y (some w) = .error e := by
  simp only [correlation_coefficient, Option.getD, Bind.bind, Except.bind, hxy]

theorem correlation_none_eq (X y : List ℚ) :
    correlation_coefficient X y none
      = correlation_coefficient X y (some (List.replicate X.length 1)) := rfl

theorem covValue_replicate {X y : List ℚ} {c : ℚ} (hc : c ≠ 0)
    (h : X.length = y.length) :
    covValue X y (List.replicate X.length c) = centeredProductSum X y / X.length := by
  have hlen : (List.zipWith
      (fun a b => (a - unweightedMean X) * (b - unweightedMean y)) X y).length
      = X.length := by
    simp [List.length_zipWith, ← h]
  unfold covValue
  rw [weightedMean_replicate hc rfl, weightedMean_replicate hc h.symm,
    weightedMean_replicate hc hlen, unweightedMean, hlen]
  rfl

theorem correlation_replicate_eq_pearson {X y : List ℚ} {c : ℚ} (hc : c ≠ 0)
    (h0 : 0 < X.length) (h : X.length = y.length) :
    correlation_coefficient X y (some (List.replicate X.length c))
      = .ok (pearsonUnweighted X y) := by
  have hn0 : (X.length : ℚ) ≠ 0 := by exact_mod_cast h0.ne'
  have hsum : (List.replicate X.length c).sum ≠ 0 := by
    rw [sum_replicate_rat]; exact mul_ne_zero hn0 hc
  have hxy := covariance_ok (X := X) (y := y) (by simp) (by simp [← h]) hsum
  have hxx := covariance_ok (X := X) (y := X) (by simp) (by simp) hsum
  have hyy := covariance_ok (X := y) (y := y) (w := List.replicate X.length c)
    (by simp [← h]) (by simp [← h]) hsum
  rw [correlation_eval hxy hxx hyy, covValue_replicate hc h, covValue_replicate hc rfl]
  have hyy' : covValue y y (List.replicate X.length c) = centeredProductSum y y / y.length := by
    rw [h, covValue_replicate hc rfl]
  rw [hyy', ← h]
  have hnR : (0 : ℝ) < (X.length : ℝ) := by exact_mod_cast h0
  set a := (centeredProductSum X y : ℝ)
  set A := (centeredProductSum X X : ℝ)
  set B := (centeredProductSum y y : ℝ)
  set nn := (X.length : ℝ)
  have key : ((centeredProductSum X y / X.length : ℚ) : ℝ) /
      Real.sqrt (((centeredProductSum X X / X.length : ℚ) : ℝ) *
        ((centeredProductSum y y / X.length : ℚ) : ℝ))
      = a / Real.sqrt (A * B) := by
    push_cast
    have h1 : A / nn * (B / nn) = A * B * (1 / nn) ^ 2 := by ring
    rw [h1, Real.sqrt_mul' _ (sq_nonneg (1 / nn)),
      Real.sqrt_sq (by positivity : (0:ℝ) ≤ 1 / nn)]
    rcases eq_or_ne (Real.sqrt (A * B)) 0 with hs | hs
    · simp [hs]
    · field_simp
  rw [key]
  rfl

theorem compute_weights_ok {X y : List ℚ} (wf : Option (ℚ → ℚ → ℚ))
    (h : X.length ≤ y.length) :
    ∃ wOpt, compute_weights X y wf = .ok wOpt
      ∧ wOpt.getD (List.replicate X.length 1) = spec_weights X y wf := by
  cases wf with
  | none => exact ⟨none, rfl, rfl⟩
  | some f => exact ⟨some _, by simp [compute_weights, h], rfl⟩

theorem spec_weights_length (X y : List ℚ) (wf : Option (ℚ → ℚ → ℚ)) :
    (spec_weights X y wf).length = X.length := by
  cases wf <;> simp [spec_weights]

theorem cod_eval {X y : List ℚ} (t : ℚ → ℚ) (wf : Option (ℚ → ℚ → ℚ))
    (hlen : X.length = y.length) (hsum : (spec_weights X y wf).sum ≠ 0) :
    coefficient_of_determination X y t wf
      = .ok (1 - weightedRSS X y t (spec_weights X y wf)
          / weightedTSS y (spec_weights X y wf)) := by
  obtain ⟨wOpt, hcw, hgetD⟩ := compute_weights_ok wf hlen.le
  have hmean : average y (spec_weights X y wf)
      = .ok (weightedMean y (spec_weights X y wf)) :=
    average_ok (by rw [spec_weights_length, hlen]) hsum
  simp only [coefficient_of_determination, Bind.bind, Except.bind, hcw, hgetD, hmean]
  rfl

theorem rss_self_zero :
    ∀ (w l : List ℚ),
      (List.zipWith (fun wi d => wi * d ^ 2) w
        (List.zipWith (fun a b => a - b) l l)).sum = 0
  | _, [] => by simp
  | [], _ :: _ => by simp
  | a :: w, b :: l => by
    simp only [List.zipWith_cons_cons, List.sum_cons, sub_self]
    rw [rss_self_zero w l]
    ring

theorem zipWith_sum_nonneg (g : ℚ → ℚ → ℚ) :
    ∀ (w l : List ℚ), (∀ a ∈ w, ∀ b, 0 ≤ g a b) →
      0 ≤ (List.zipWith g w l).sum
  | [], _, _ => by simp
  | _ :: _, [], _ => by simp
  | a :: w, b :: l, h => by
    simp only [List.zipWith_cons_cons, List.sum_cons]
    exact add_nonneg (h a (by simp) b)
      (zipWith_sum_nonneg g w l (fun x hx c => h x (by simp [hx]) c))

/-! ## Claim theorems -/

/-- C1: `correlation_coefficient(X, y, weights)` equals
`cov(X,y) / sqrt(cov(X,X) · cov(y,y))` computed with the module's weighted
`covariance`; and for every equal-weight input (any constant nonzero weight
list, in particular the all-ones default used when `weights is None`) it
equals the standard unweighted Pearson correlation coefficient, exactly,
under the exact rational/real embedding. -/
theorem claim_C1_correlation_formula :
    (∀ (X y ws : List ℚ) (cxy cxx cyy : ℚ),
      covariance X y (some ws) = .ok cxy →
      covariance X X (some ws) = .ok cxx →
      covariance y y (some ws) = .ok cyy →
      correlation_coefficient X y (some ws)
        = .ok ((cxy : ℝ) / Real.sqrt ((cxx : ℝ) * (cyy : ℝ))))
    ∧ (∀ (X y : List ℚ) (c : ℚ), c ≠ 0 → 0 < X.length → X.length = y.length →
      correlation_coefficient X y (some (List.replicate X.length c))
        = .ok (pearsonUnweighted X y)
      ∧ correlation_coefficient X y none = .ok (pearsonUnweighted X y)) := by
  constructor
  · intro X y ws cxy cxx cyy hxy hxx hyy
    exact correlation_eval hxy hxx hyy
  · intro X y c hc h0 h
    refine ⟨correlation_replicate_eq_pearson hc h0 h, ?_⟩
    rw [correlation_none_eq]
    exact correlation_replicate_eq_pearson one_ne_zero h0 h

/-- Witness for C1 at `X = [0,2]`, `y = [0,4]` with unit weights:
`cov(X,y) = 2`, `cov(X,X) = 1`, `cov(y,y) = 4`, and the correlation equals
both `2 / sqrt(1·4)` and the standard unweighted Pearson value. -/
theorem claim_C1_correlation_formula_witness :
    covariance [0, 2] [0, 4] (some [1, 1]) = .ok 2
    ∧ covariance [0, 2] [0, 2] (some [1, 1]) = .ok 1
    ∧ covariance [0, 4] [0, 4] (some [1, 1]) = .ok 4
    ∧ correlation_coefficient [0, 2] [0, 4] (some [1, 1])
        = .ok (((2 : ℚ) : ℝ) / Real.sqrt (((1 : ℚ) : ℝ) * ((4 : ℚ) : ℝ)))
    ∧ correlation_coefficient [0, 2] [0, 4] none
        = .ok (pearsonUnweighted [0, 2] [0, 4]) := by
  have h1 : covariance [(0:ℚ), 2] [(0:ℚ), 4] (some [1, 1]) = .ok 2 := by
    norm_num [covariance, average, Bind.bind, Except.bind, Option.getD]
  have h2 : covariance [(0:ℚ), 2] [(0:ℚ), 2] (some [1, 1]) = .ok 1 := by
    norm_num [covariance, average, Bind.bind, Except.bind, Option.getD]
  have h3 : covariance [(0:ℚ), 4] [(0:ℚ), 4] (some [1, 1]) = .ok 4 := by
    norm_num [covariance, average, Bind.bind, Except.bind, Option.getD]
  exact ⟨h1, h2, h3, claim_C1_correlation_formula.1 _ _ _ _ _ _ h1 h2 h3,
    (claim_C1_correlation_formula.2 [0, 2] [0, 4] 1 one_ne_zero (by norm_num)
      (by norm_num)).2⟩

/-- C9: `correlation_coefficient` is symmetric in its two data arguments,
for every weight argument (including the `None` default), on every pair of
equal-length sequences. -/
theorem claim_C9_correlation_symmetric (X y : List ℚ) (w : Option (List ℚ))
    (h : X.length = y.length) :
    correlation_coefficient X y w = correlation_coefficient y X w := by
  have hsome : ∀ ws : List ℚ,
      correlation_coefficient X y (some ws) = correlation_coefficient y X (some ws) := by
    intro ws
    cases hxy : covariance X y (some ws) with
    | error e =>
        have hyx : covariance y X (some ws) = .error e := by
          rw [← covariance_comm ws h]; exact hxy
        rw [correlation_error hxy, correlation_error hyx]
    | ok cv =>
        obtain ⟨h1, h2, h3, -⟩ := covariance_ok_inv hxy
        have hxx := covariance_ok h1 h1 h3
        have hyy := covariance_ok h2 h2 h3
        have hyx : covariance y X (some ws) = .ok cv := by
          rw [← covariance_comm ws h]; exact hxy
        rw [correlation_eval hxy hxx hyy, correlation_eval hyx hyy hxx,
          mul_comm ((covValue X X ws : ℚ) : ℝ) ((covValue y y ws : ℚ) : ℝ)]
  cases w with
  | some ws => exact hsome ws
  | none =>
      rw [correlation_none_eq X y, correlation_none_eq y X, ← h]
      exact hsome _

/-- Witness for C9 at `X = [1,2]`, `y = [3,5]` with default weights. -/
theorem claim_C9_correlation_symmetric_witness :
    ([1, 2] : List ℚ).length = ([3, 5] : List ℚ).length
    ∧ correlation_coefficient [1, 2] [3, 5] none
        = correlation_coefficient [3, 5] [1, 2] none :=
  ⟨rfl, claim_C9_correlation_symmetric [1, 2] [3, 5] none rfl⟩

/-- C2: for equal-length `X`, `y` whose effective weights (elementwise
weight-function values, or all ones for `weight_func = None`) do not sum to
zero, `coefficient_of_determination` returns `1 − RSS/TSS` with the weighted
residual and total sums of squares of the spec; consequently it returns
exactly `1` whenever the trendline passes through every data point and the
total sum of squares is nonzero. -/
theorem claim_C2_cod_formula (X y : List ℚ) (t : ℚ → ℚ)
    (wf : Option (ℚ → ℚ → ℚ)) (hlen : X.length = y.length)
    (hsum : (spec_weights X y wf).sum ≠ 0) :
    coefficient_of_determination X y t wf
      = .ok (1 - weightedRSS X y t (spec_weights X y wf)
          / weightedTSS y (spec_weights X y wf))
    ∧ (X.map t = y → weightedTSS y (spec_weights X y wf) ≠ 0 →
        coefficient_of_determination X y t wf = .ok 1) := by
  refine ⟨cod_eval t wf hlen hsum, fun hexact _ => ?_⟩
  rw [cod_eval t wf hlen hsum, weightedRSS, hexact, rss_self_zero, zero_div, sub_zero]

/-- Witness for C2 at `X = [1,2]`, `y = [2,4]`, `trendline x = 2x` (an exact
fit), default weights: R² is exactly 1. -/
theorem claim_C2_cod_formula_witness :
    ([1, 2] : List ℚ).length = ([2, 4] : List ℚ).length
    ∧ (spec_weights [1, 2] [2, 4] none).sum ≠ 0
    ∧ ([1, 2] : List ℚ).map (fun x => 2 * x) = [2, 4]
    ∧ weightedTSS [2, 4] (spec_weights [1, 2] [2, 4] none) ≠ 0
    ∧ coefficient_of_determination [1, 2] [2, 4] (fun x => 2 * x) none = .ok 1 := by
  have hs : (spec_weights [1, 2] [2, 4] none).sum ≠ (0 : ℚ) := by
    norm_num [spec_weights]
  have hm : ([1, 2] : List ℚ).map (fun x => 2 * x) = [2, 4] := by
    norm_num
  have ht : weightedTSS [2, 4] (spec_weights [1, 2] [2, 4] none) ≠ 0 := by
    norm_num [weightedTSS, weightedMean, spec_weights,
      show List.replicate 2 (1:ℚ) = [1, 1] from rfl]
  exact ⟨rfl, hs, hm, ht, (claim_C2_cod_formula [1, 2] [2, 4] _ none rfl hs).2 hm ht⟩

/-- C10: with nonnegative effective weights of positive total and a nonzero
weighted total sum of squares, `coefficient_of_determination` returns a
value that is at most 1; and it is not bounded below by 0 — at
`X = [0,1]`, `y = [0,1]` with the constant trendline `100` it returns the
negative value `-39601`. -/
theorem claim_C10_cod_upper_bound :
    (∀ (X y : List ℚ) (t : ℚ → ℚ) (wf : Option (ℚ → ℚ → ℚ)),
      X.length = y.length →
      (∀ a ∈ spec_weights X y wf, 0 ≤ a) →
      0 < (spec_weights X y wf).sum →
      weightedTSS y (spec_weights X y wf) ≠ 0 →
      ∃ v, coefficient_of_determination X y t wf = .ok v ∧ v ≤ 1)
    ∧ (∃ v, coefficient_of_determination [0, 1] [0, 1] (fun _ => 100) none
        = .ok v ∧ v < 0) := by
  constructor
  · intro X y t wf hlen hw hpos htss
    refine ⟨_, cod_eval t wf hlen hpos.ne', ?_⟩
    have htss0 : 0 ≤ weightedTSS y (spec_weights X y wf) := by
      unfold weightedTSS
      exact zipWith_sum_nonneg _ _ _
        (fun a ha b => mul_nonneg (hw a ha) (sq_nonneg _))
    have hrss0 : 0 ≤ weightedRSS X y t (spec_weights X y wf) := by
      unfold weightedRSS
      exact zipWith_sum_nonneg _ _ _
        (fun a ha b => mul_nonneg (hw a ha) (sq_nonneg _))
    have hdiv : 0 ≤ weightedRSS X y t (spec_weights X y wf)
        / weightedTSS y (spec_weights X y wf) := div_nonneg hrss0 htss0
    linarith
  · refine ⟨-39601, ?_, by norm_num⟩
    norm_num [coefficient_of_determination, compute_weights, average,
      Bind.bind, Except.bind, Option.getD, Pure.pure, Except.pure,
      show List.replicate 2 (1:ℚ) = [1, 1] from rfl]

/-- Witness for C10's general part at `X = [0,1]`, `y = [0,3]` with the
identity trendline and default weights. -/
theorem claim_C10_cod_upper_bound_witness :
    ([0, 1] : List ℚ).length = ([0, 3] : List ℚ).length
    ∧ (∀ a ∈ spec_weights [0, 1] [0, 3] none, 0 ≤ a)
    ∧ 0 < (spec_weights [0, 1] [0, 3] none).sum
    ∧ weightedTSS [0, 3] (spec_weights [0, 1] [0, 3] none) ≠ 0
    ∧ ∃ v, coefficient_of_determination [0, 1] [0, 3] (fun x => x) none
        = .ok v ∧ v ≤ 1 := by
  have hw : ∀ a ∈ spec_weights [(0:ℚ), 1] [(0:ℚ), 3] none, (0:ℚ) ≤ a := by
    norm_num [spec_weights]
  have hpos : (0:ℚ) < (spec_weights [(0:ℚ), 1] [(0:ℚ), 3] none).sum := by
    norm_num [spec_weights]
  have ht : weightedTSS [(0:ℚ), 3] (spec_weights [(0:ℚ), 1] [(0:ℚ), 3] none) ≠ 0 := by
    norm_num [weightedTSS, weightedMean, spec_weights,
      show List.replicate 2 (1:ℚ) = [1, 1] from rfl]
  exact ⟨rfl, hw, hpos, ht,
    claim_C10_cod_upper_bound.1 [0, 1] [0, 3] (fun x => x) none rfl hw hpos ht⟩

/-- C6: for every weights argument (including the `None` default),
`covariance` on sequences of different lengths raises — it never returns a
numeric result.  (For nonempty `X` the error is numpy's shape-mismatch
`TypeError`; for empty `X` with default weights it is the
`ZeroDivisionError` of the empty weighted average — an error either way.) -/
theorem claim_C6_covariance_length_mismatch (X y : List ℚ) (w : Option (List ℚ))
    (h : X.length ≠ y.length) : ∃ e, covariance X y w = .error e := by
  have hcov : covariance X y w
      = Except.bind (average X (w.getD (List.replicate X.length 1)))
          (fun mx => Except.bind (average y (w.getD (List.replicate X.length 1)))
            (fun my => average
              (List.zipWith (fun a b => (a - mx) * (b - my)) X y)
              (w.getD (List.replicate X.length 1)))) := rfl
  set wl := w.getD (List.replicate X.length 1) with hwl
  by_cases hX : X.length = wl.length
  · by_cases hs : wl.sum = 0
    · exact ⟨_, by rw [hcov, average_error_zero hX hs]; rfl⟩
    · have hy : y.length ≠ wl.length := by rw [← hX]; exact (Ne.symm h)
      exact ⟨_, by rw [hcov, average_ok hX hs, average_error_shape hy]; rfl⟩
  · exact ⟨_, by rw [hcov, average_error_shape hX]; rfl⟩

/-- Witness for C6 at `X = [1]`, `y = [1,2]` with default weights. -/
theorem claim_C6_covariance_length_mismatch_witness :
    ([1] : List ℚ).length ≠ ([1, 2] : List ℚ).length
    ∧ ∃ e, covariance [1] [1, 2] none = .error e :=
  ⟨by decide, claim_C6_covariance_length_mismatch [1] [1, 2] none (by decide)⟩

/-- C3 counterexample: the claim says a degenerate denominator makes the
operation fail with an explicit error or sentinel.  It does not: at
`X = [1,1]` (zero weighted variance) `correlation_coefficient` returns a
normal `ok` value, and at constant `y = [1,1]` (zero TSS)
`coefficient_of_determination` returns a normal `ok` value — in the float
code these are silent NaNs. -/
theorem claim_C3_counterexample :
    covariance [1, 1] [1, 1] (some [1, 1]) = .ok 0
    ∧ isSuccess (correlation_coefficient [1, 1] [1, 2] none) = true
    ∧ weightedTSS [1, 1] (spec_weights [1, 2] [1, 1] none) = 0
    ∧ isSuccess (coefficient_of_determination [1, 2] [1, 1] (fun x => x) none)
        = true := by
  refine ⟨?_, ?_, ?_, ?_⟩
  · norm_num [covariance, average, Bind.bind, Except.bind, Option.getD]
  · norm_num [correlation_coefficient, covariance, average, Bind.bind,
      Except.bind, Option.getD, isSuccess, Pure.pure, Except.pure,
      show List.replicate 2 (1:ℚ) = [1, 1] from rfl]
  · norm_num [weightedTSS, weightedMean, spec_weights,
      show List.replicate 2 (1:ℚ) = [1, 1] from rfl]
  · norm_num [coefficient_of_determination, compute_weights, average,
      Bind.bind, Except.bind, Option.getD, isSuccess, Pure.pure, Except.pure,
      show List.replicate 2 (1:ℚ) = [1, 1] from rfl]

/-- C3 amended: on a degenerate denominator the operations do NOT fail —
`correlation_coefficient` returns the quotient of `cov(X,y)` by the ZERO
denominator (silently NaN/Inf in the float code) whenever `cov(X,X) = 0`,
and `coefficient_of_determination` returns a normal value whenever its
weighted mean is defined, regardless of the TSS. -/
theorem claim_C3_amended :
    (∀ (X y ws : List ℚ) (cxy : ℚ),
      covariance X y (some ws) = .ok cxy →
      covariance X X (some ws) = .ok 0 →
      correlation_coefficient X y (some ws) = .ok ((cxy : ℝ) / 0))
    ∧ (∀ (X y : List ℚ) (t : ℚ → ℚ), X.length = y.length →
        (spec_weights X y none).sum ≠ 0 →
        ∃ v, coefficient_of_determination X y t none = .ok v) := by
  constructor
  · intro X y ws cxy hxy hxx
    obtain ⟨h1, h2, h3, -⟩ := covariance_ok_inv hxy
    have hyy := covariance_ok h2 h2 h3
    rw [correlation_eval hxy hxx hyy]
    norm_num
  · intro X y t hlen hsum
    exact ⟨_, cod_eval t none hlen hsum⟩

/-- Witness for C3's amended statement at `X = [1,1]`, `y = [2,4]` (zero
variance) and at `X = [1,2]`, `y = [5,5]` (zero TSS). -/
theorem claim_C3_amended_witness :
    covariance [1, 1] [2, 4] (some [1, 1]) = .ok 0
    ∧ covariance [1, 1] [1, 1] (some [1, 1]) = .ok 0
    ∧ correlation_coefficient [1, 1] [2, 4] (some [1, 1]) = .ok (((0 : ℚ) : ℝ) / 0)
    ∧ ([1, 2] : List ℚ).length = ([5, 5] : List ℚ).length
    ∧ (spec_weights [1, 2] [5, 5] none).sum ≠ 0
    ∧ ∃ v, coefficient_of_determination [1, 2] [5, 5] (fun x => x) none = .ok v := by
  have h1 : covariance [(1:ℚ), 1] [(2:ℚ), 4] (some [1, 1]) = .ok 0 := by
    norm_num [covariance, average, Bind.bind, Except.bind, Option.getD]
  have h2 : covariance [(1:ℚ), 1] [(1:ℚ), 1] (some [1, 1]) = .ok 0 := by
    norm_num [covariance, average, Bind.bind, Except.bind, Option.getD]
  have hs : (spec_weights [(1:ℚ), 2] [(5:ℚ), 5] none).sum ≠ 0 := by
    norm_num [spec_weights, show List.replicate 2 (1:ℚ) = [1, 1] from rfl]
  exact ⟨h1, h2, claim_C3_amended.1 _ _ _ _ h1 h2, rfl, hs,
    claim_C3_amended.2 _ _ (fun x => x) rfl hs⟩

/-- C5: the input-path guard `not (input_path.is_file() or
input_path.exists())` (line 27).  It exits with code 1 for a nonexistent
path (`is_file = false`, `exists = false`), but for an existing directory
(`is_file = false`, `exists = true`) it does NOT exit — `exists()` makes
the whole disjunction true — even though both the claim and the script's
own error message ("The specified input is not a file or does not exist!")
require an exit there.  The code proceeds into `pd.read_csv` on a
directory. -/
theorem claim_C5_input_check_behavior :
    exitsWithErrorCode false false = true ∧ exitsWithErrorCode false true = false := by
  decide

theorem filterMap_skip_empty {β : Type _} (g : List (ℚ × ℚ) → β) :
    ∀ l : List (List (ℚ × ℚ)),
      l.filterMap (fun cell => if cell.length = 0 then none else some (g cell))
        = (l.filter (fun cell => cell.length != 0)).map g
  | [] => rfl
  | [] :: l => by
    simpa using filterMap_skip_empty g l
  | (p :: ps) :: l => by
    simpa using filterMap_skip_empty g l

theorem rowMatches_inj {r : DataRow} {p q : ℚ × ℚ}
    (hp : rowMatches r p = true) (hq : rowMatches r q = true) : p = q := by
  simp only [rowMatches, Bool.and_eq_true, decide_eq_true_eq] at hp hq
  cases p
  cases q
  simp only [Prod.mk.injEq]
  exact ⟨hp.1.symm.trans hq.1, hp.2.symm.trans hq.2⟩

theorem sum_filter_or (f : DataRow → ℚ) (p q : DataRow → Bool) :
    ∀ l : List DataRow, (∀ r ∈ l, ¬(p r = true ∧ q r = true)) →
      ((l.filter fun r => p r || q r).map f).sum
        = ((l.filter p).map f).sum + ((l.filter q).map f).sum
  | [], _ => by simp
  | r :: l, h => by
    have hl := sum_filter_or f p q l (fun x hx => h x (List.mem_cons_of_mem _ hx))
    by_cases hp : p r = true
    · have hq : q r = false := by
        cases hqq : q r
        · rfl
        · exact absurd ⟨hp, hqq⟩ (h r (List.mem_cons_self _ _))
      simp only [List.filter_cons, hp, hq, Bool.true_or, if_pos, List.map_cons,
        List.sum_cons, if_true, Bool.false_eq_true, if_false, hl]
      ring
    · have hp2 : p r = false := Bool.eq_false_iff.mpr hp
      by_cases hq : q r = true
      · simp only [List.filter_cons, hp2, hq, Bool.false_or, List.map_cons,
          List.sum_cons, if_true, Bool.false_eq_true, if_false, hl]
        ring
      · have hq2 : q r = false := Bool.eq_false_iff.mpr hq
        simp [List.filter_cons, hp2, hq2, hl]

theorem cellTotal_eq_claimed (df : List DataRow) (col : ℕ) :
    ∀ cell : List (ℚ × ℚ), cell.Nodup →
      cellTotal df col cell = claimedCellTotal df col cell
  | [], _ => by
    simp [cellTotal, claimedCellTotal]
  | p :: cell, hnd => by
    have hp : p ∉ cell := (List.nodup_cons.mp hnd).1
    have hcell := cellTotal_eq_claimed df col cell (List.nodup_cons.mp hnd).2
    have hdisj : ∀ r ∈ df,
        ¬(rowMatches r p = true ∧ (cell.any fun x => rowMatches r x) = true) := by
      rintro r - ⟨h1, h2⟩
      obtain ⟨x, hx, hrx⟩ := List.any_eq_true.mp h2
      exact hp (rowMatches_inj h1 hrx ▸ hx)
    have hfun : (fun r => (p :: cell).any fun x => rowMatches r x)
        = fun r => rowMatches r p || cell.any fun x => rowMatches r x := by
      funext r
      simp [List.any_cons]
    rw [cellTotal, List.map_cons, List.sum_cons, claimedCellTotal, hfun,
      sum_filter_or _ _ _ df hdisj]
    rw [cellTotal] at hcell
    rw [hcell, claimedCellTotal, pointTotal]

/-- C4 counterexample: the claim reads `Y` as the sum of the column over the
set of rows matching a point of the cell.  The code instead loops over the
cell's points and re-adds the matching rows each time: for a cell holding
the same coordinate pair twice and a table with one matching row of value 5,
the code appends `Y = 10` while the claim requires `5`. -/
theorem claim_C4_counterexample :
    cellTotal [⟨1, 1, fun _ => some 5⟩] 0 [(1, 1), (1, 1)] = 10
    ∧ claimedCellTotal [⟨1, 1, fun _ => some 5⟩] 0 [(1, 1), (1, 1)] = 5
    ∧ aggregate_Y [⟨1, 1, fun _ => some 5⟩] 0 [[[(1, 1), (1, 1)]]] = [10]
    ∧ aggregate_X [[[(1, 1), (1, 1)]]] = [2] := by
  refine ⟨?_, ?_, ?_, ?_⟩
  · norm_num [cellTotal, pointTotal, rowMatches, List.filter]
  · norm_num [claimedCellTotal, rowMatches, List.filter, List.any_cons]
  · norm_num [aggregate_Y, cellTotal, pointTotal, rowMatches, List.filter,
      List.filterMap_cons]
    rfl
  · norm_num [aggregate_X, List.filterMap_cons]
    rfl

/-- C4 amended: the aggregation loop visits cells in row-major order,
skips every empty cell, and for each non-empty cell contributes exactly one
sample per column, with `X` the cell's point count and `Y` the sum, over the
cell's points, of the column totals of the rows exactly matching that point
(NaN as 0) — so a row is counted once per matching point, and only when the
cell's points are pairwise distinct does `Y` equal the claim's sum over rows
matching some point of the cell; the length of `X` equals the number of
non-empty cells. -/
theorem claim_C4_aggregation_amended :
    (∀ grid : List (List (List (ℚ × ℚ))),
      aggregate_X grid = (nonEmptyCells grid).map List.length)
    ∧ (∀ (df : List DataRow) (col : ℕ) (grid : List (List (List (ℚ × ℚ)))),
      aggregate_Y df col grid = (nonEmptyCells grid).map (cellTotal df col))
    ∧ (∀ grid : List (List (List (ℚ × ℚ))),
      (aggregate_X grid).length = (nonEmptyCells grid).length)
    ∧ (∀ (df : List DataRow) (col : ℕ) (grid : List (List (List (ℚ × ℚ)))),
      (aggregate_Y df col grid).length = (aggregate_X grid).length)
    ∧ (∀ (df : List DataRow) (col : ℕ) (cell : List (ℚ × ℚ)), cell.Nodup →
      cellTotal df col cell = claimedCellTotal df col cell) := by
  have hX : ∀ grid : List (List (List (ℚ × ℚ))),
      aggregate_X grid = (nonEmptyCells grid).map List.length := by
    intro grid
    rw [aggregate_X, nonEmptyCells, filterMap_skip_empty List.length]
  have hY : ∀ (df : List DataRow) (col : ℕ) (grid : List (List (List (ℚ × ℚ)))),
      aggregate_Y df col grid = (nonEmptyCells grid).map (cellTotal df col) := by
    intro df col grid
    rw [aggregate_Y, nonEmptyCells, filterMap_skip_empty (cellTotal df col)]
  refine ⟨hX, hY, ?_, ?_, fun df col cell h => cellTotal_eq_claimed df col cell h⟩
  · intro grid
    rw [hX, List.length_map]
  · intro df col grid
    rw [hX, hY, List.length_map, List.length_map]

/-- Witness for C4's amended statement on a concrete 2×2 grid with three
points and a table whose third row is NaN in the measured column:
`X = [1, 2]`, `Y = [10, 20]`, and on the duplicate-free cells the code's
totals agree with the claim's set-reading. -/
theorem claim_C4_aggregation_amended_witness :
    aggregate_X [[[((1:ℚ), (1:ℚ))], []], [[(2, 2), (3, 3)], []]] = [1, 2]
    ∧ aggregate_Y
        [⟨1, 1, fun _ => some 10⟩, ⟨2, 2, fun _ => some 20⟩, ⟨3, 3, fun _ => none⟩]
        0 [[[((1:ℚ), (1:ℚ))], []], [[(2, 2), (3, 3)], []]] = [10, 20]
    ∧ ([((2:ℚ), (2:ℚ)), (3, 3)] : List (ℚ × ℚ)).Nodup
    ∧ cellTotal
        [⟨1, 1, fun _ => some 10⟩, ⟨2, 2, fun _ => some 20⟩, ⟨3, 3, fun _ => none⟩]
        0 [((2:ℚ), (2:ℚ)), (3, 3)]
      = claimedCellTotal
        [⟨1, 1, fun _ => some 10⟩, ⟨2, 2, fun _ => some 20⟩, ⟨3, 3, fun _ => none⟩]
        0 [((2:ℚ), (2:ℚ)), (3, 3)] := by
  have hnd : ([((2:ℚ), (2:ℚ)), (3, 3)] : List (ℚ × ℚ)).Nodup := by
    norm_num [List.nodup_cons]
  refine ⟨?_, ?_, hnd,
    claim_C4_aggregation_amended.2.2.2.2 _ 0 [((2:ℚ), (2:ℚ)), (3, 3)] hnd⟩
  · norm_num [aggregate_X, List.filterMap_cons]
    rfl
  · norm_num [aggregate_Y, cellTotal, pointTotal, rowMatches, List.filter,
      List.filterMap_cons]
    rfl

/-- C7 counterexample: with two measurement columns where the curve fit
fails on the first (the optimizer raises, as `scipy.optimize.curve_fit` does
on non-convergence) but would succeed on the second, the driver loop aborts
with the uncaught error and produces NO per-column results — the second
column is never processed — although processing it alone succeeds.  The
claim's required behavior (a structured per-column fit-failure that lets the
driver skip the column and continue) does not exist in the code. -/
theorem claim_C7_counterexample :
    process_all_columns
        (fun _ _ y _ => if y = [1, 2] then
            .error "RuntimeError: Optimal parameters not found" else .ok [1, 1, 1])
        (fun _ _ _ _ => .ok [1, 0])
        (fun t ps => ps.headD 0 * t)
        [1, 2] [("a", [1, 2]), ("b", [2, 4])]
      = .error "RuntimeError: Optimal parameters not found"
    ∧ isSuccess (process_column
        (fun _ _ y _ => if y = [1, 2] then
            .error "RuntimeError: Optimal parameters not found" else .ok [1, 1, 1])
        (fun _ _ _ _ => .ok [1, 0])
        (fun t ps => ps.headD 0 * t)
        [1, 2] [2, 4]) = true := by
  have ha : process_column
      (fun _ _ y _ => if y = [1, 2] then
          .error "RuntimeError: Optimal parameters not found" else .ok [1, 1, 1])
      (fun _ _ _ _ => .ok [1, 0])
      (fun t ps => ps.headD 0 * t)
      [1, 2] [1, 2] = .error "RuntimeError: Optimal parameters not found" := by
    norm_num [process_column, generate_polynomial_trendline, generate_curve_fit,
      generate_trendline_metrics, np_polyfit, compute_weights,
      correlation_coefficient, covariance, average, coefficient_of_determination,
      poly1d, Bind.bind, Except.bind, Option.getD, Pure.pure, Except.pure,
      show List.replicate 2 (1:ℚ) = [1, 1] from rfl]
  constructor
  · simp only [process_all_columns, List.mapM, List.mapM.loop, ha, Except.map,
      Bind.bind, Except.bind]
  · norm_num [process_column, generate_polynomial_trendline, generate_curve_fit,
      generate_trendline_metrics, np_polyfit, compute_weights,
      correlation_coefficient, covariance, average, coefficient_of_determination,
      poly1d, Bind.bind, Except.bind, Option.getD, Pure.pure, Except.pure,
      isSuccess, List.mapM, List.mapM.loop, Except.map,
      show List.replicate 2 (1:ℚ) = [1, 1] from rfl]

/-- C7 amended: a curve-fit failure is NOT caught anywhere —
`generate_curve_fit` propagates the optimizer's exception, and the driver
loop aborts at the first failing column, so the remaining measurement
columns are not processed at all. -/
theorem claim_C7_fit_failure_aborts :
    (∀ (optimizer : (ℚ → List ℚ → ℚ) → List ℚ → List ℚ → Option (List ℚ)
          → Except String (List ℚ))
       (X y : List ℚ) (f : ℚ → List ℚ → ℚ) (e : String),
      optimizer f X y none = .error e →
      generate_curve_fit optimizer X y f none = .error e)
    ∧ (∀ (optimizer : (ℚ → List ℚ → ℚ) → List ℚ → List ℚ → Option (List ℚ)
          → Except String (List ℚ))
       (lstsq : List ℚ → List ℚ → ℕ → Option (List ℚ) → Except String (List ℚ))
       (f : ℚ → List ℚ → ℚ) (X : List ℚ) (name : String) (y : List ℚ)
       (rest : List (String × List ℚ)) (e : String),
      process_column optimizer lstsq f X y = .error e →
      process_all_columns optimizer lstsq f X ((name, y) :: rest) = .error e) := by
  constructor
  · intro optimizer X y f e h
    simp only [generate_curve_fit, compute_weights, Bind.bind, Except.bind, h]
  · intro optimizer lstsq f X name y rest e h
    simp only [process_all_columns, List.mapM, List.mapM.loop, h, Except.map,
      Bind.bind, Except.bind]

/-- Witness for C7's amended statement: a constantly-failing optimizer makes
`generate_curve_fit` fail, and a first-column fit failure aborts the whole
two-column driver run. -/
theorem claim_C7_fit_failure_aborts_witness :
    ((fun _ _ _ _ => .error "RuntimeError: Optimal parameters not found") :
        (ℚ → List ℚ → ℚ) → List ℚ → List ℚ → Option (List ℚ)
          → Except String (List ℚ)) (fun t _ => t) [1, 2] [2, 3] none
      = .error "RuntimeError: Optimal parameters not found"
    ∧ generate_curve_fit (fun _ _ _ _ => .error "RuntimeError: Optimal parameters not found")
        [1, 2] [2, 3] (fun t _ => t) none
      = .error "RuntimeError: Optimal parameters not found"
    ∧ process_column (fun _ _ _ _ => .error "RuntimeError: Optimal parameters not found")
        (fun _ _ _ _ => .ok [1, 0]) (fun t _ => t) [1, 2] [9, 9]
      = .error "RuntimeError: Optimal parameters not found"
    ∧ process_all_columns
        (fun _ _ _ _ => .error "RuntimeError: Optimal parameters not found")
        (fun _ _ _ _ => .ok [1, 0]) (fun t _ => t) [1, 2]
        [("m", [9, 9]), ("n", [1, 1])]
      = .error "RuntimeError: Optimal parameters not found" := by
  have hpc : process_column
      (fun _ _ _ _ => .error "RuntimeError: Optimal parameters not found")
      (fun _ _ _ _ => .ok [1, 0]) (fun t _ => t) [1, 2] [9, 9]
      = .error "RuntimeError: Optimal parameters not found" := by
    norm_num [process_column, generate_polynomial_trendline, generate_curve_fit,
      generate_trendline_metrics, np_polyfit, compute_weights,
      correlation_coefficient, covariance, average, coefficient_of_determination,
      poly1d, Bind.bind, Except.bind, Option.getD, Pure.pure, Except.pure,
      show List.replicate 2 (1:ℚ) = [1, 1] from rfl]
  exact ⟨rfl,
    claim_C7_fit_failure_aborts.1 _ [1, 2] [2, 3] (fun t _ => t) _ rfl,
    hpc,
    claim_C7_fit_failure_aborts.2 _ _ (fun t _ => t) [1, 2] "m" [9, 9]
      [("n", [1, 1])] _ hpc⟩

/-- C8 counterexample: at `X = [1]`, `y = [5]`, degree 1 — an
underdetermined system, `len(X) = 1 < degree + 1 = 2` — the polynomial
fitter returns a fitted trendline instead of failing: `np.polyfit` only
emits a `RankWarning` there, and its minimum-norm solution (the solver
oracle's `ok` coefficients) flows through to a successful result. -/
theorem claim_C8_counterexample :
    ([(1:ℚ)].length < 1 + 1)
    ∧ isSuccess (generate_polynomial_trendline (fun _ _ _ _ => .ok [0, 5])
        [1] [5] none 1) = true := by
  refine ⟨by norm_num, ?_⟩
  norm_num [generate_polynomial_trendline, np_polyfit, compute_weights,
    generate_trendline_metrics, correlation_coefficient, covariance, average,
    coefficient_of_determination, poly1d, Bind.bind, Except.bind, Option.getD,
    Pure.pure, Except.pure, isSuccess,
    show List.replicate 1 (1:ℚ) = [1] from rfl]

/-- C8 amended: the fitter performs no sample-size check: for every
equal-length nonempty input, `np.polyfit` just runs the least-squares
solver, whatever the degree; and whenever the solver returns coefficients
for the underdetermined input `X = [1]`, `y = [5]`, degree 1 (as numpy's
does, with only a `RankWarning`), `generate_polynomial_trendline` returns a
fitted trendline.  Only an empty `X` (or a length mismatch) is rejected. -/
theorem claim_C8_polyfit_no_underdetermined_check :
    (∀ (lstsq : List ℚ → List ℚ → ℕ → Option (List ℚ) → Except String (List ℚ))
       (X y : List ℚ) (deg : ℕ),
      X.length ≠ 0 → X.length = y.length →
      np_polyfit lstsq X y deg none = lstsq X y deg none)
    ∧ (∀ (lstsq : List ℚ → List ℚ → ℕ → Option (List ℚ) → Except String (List ℚ))
         (coeffs : List ℚ),
      lstsq [1] [5] 1 none = .ok coeffs →
      isSuccess (generate_polynomial_trendline lstsq [1] [5] none 1) = true) := by
  constructor
  · intro lstsq X y deg h1 h2
    rw [np_polyfit, if_neg h1, if_neg (not_not_intro h2)]
  · intro lstsq coeffs hl
    have h1 : np_polyfit lstsq [(1:ℚ)] [(5:ℚ)] 1 none = .ok coeffs := by
      simpa [np_polyfit] using hl
    have hcov : covariance [(1:ℚ)] [(5:ℚ)] (some [1]) = .ok 0 := by
      norm_num [covariance, average, Bind.bind, Except.bind, Option.getD]
    have hcxx : covariance [(1:ℚ)] [(1:ℚ)] (some [1]) = .ok 0 := by
      norm_num [covariance, average, Bind.bind, Except.bind, Option.getD]
    have hcyy : covariance [(5:ℚ)] [(5:ℚ)] (some [1]) = .ok 0 := by
      norm_num [covariance, average, Bind.bind, Except.bind, Option.getD]
    have hcor : correlation_coefficient [(1:ℚ)] [(5:ℚ)] none
        = .ok (((0:ℚ) : ℝ) / Real.sqrt (((0:ℚ) : ℝ) * ((0:ℚ) : ℝ))) := by
      rw [correlation_none_eq, show List.replicate ([(1:ℚ)].length) (1:ℚ) = [1] from rfl]
      exact correlation_eval hcov hcxx hcyy
    have hsum : (spec_weights [(1:ℚ)] [(5:ℚ)] none).sum ≠ 0 := by
      norm_num [spec_weights, show List.replicate 1 (1:ℚ) = [1] from rfl]
    have hcod := cod_eval (X := [(1:ℚ)]) (y := [(5:ℚ)]) (poly1d coeffs) none rfl hsum
    simp only [generate_polynomial_trendline, generate_trendline_metrics,
      compute_weights, Bind.bind, Except.bind, h1, hcor, hcod, Pure.pure,
      Except.pure, isSuccess]

/-- Witness for C8's amended statement: a degree-5 fit on two points is
passed straight to the solver, and the underdetermined one-point degree-1
fit succeeds with a concrete solver result. -/
theorem claim_C8_polyfit_no_underdetermined_check_witness :
    ([(1:ℚ), 2].length ≠ 0)
    ∧ ([(1:ℚ), 2].length = [(3:ℚ), 4].length)
    ∧ np_polyfit (fun _ _ _ _ => .ok [2, 0]) [1, 2] [3, 4] 5 none
        = ((fun _ _ _ _ => .ok [2, 0]) :
            List ℚ → List ℚ → ℕ → Option (List ℚ) → Except String (List ℚ))
          [1, 2] [3, 4] 5 none
    ∧ ((fun _ _ _ _ => .ok [3, 1]) :
        List ℚ → List ℚ → ℕ → Option (List ℚ) → Except String (List ℚ))
        [1] [5] 1 none = .ok [3, 1]
    ∧ isSuccess (generate_polynomial_trendline (fun _ _ _ _ => .ok [3, 1])
        [1] [5] none 1) = true :=
  ⟨by decide, rfl,
    claim_C8_polyfit_no_underdetermined_check.1 _ [1, 2] [3, 4] 5 (by decide) rfl,
    rfl,
    claim_C8_polyfit_no_underdetermined_check.2 _ [3, 1] rfl⟩

end GenerateGraph
